import Mathlib

/-!
Shallow embedding of the typed arena allocator (`src/lib.rs`).

The Rust core is an `Arena<T>` wrapping `RefCell<ChunkList<T>>`, where
`ChunkList<T>` holds one open chunk `current : Vec<T>` plus a list of sealed
chunks `rest : Vec<Vec<T>>`.  We model:

* a `Vec<T>` as a `Chunk`: a list of slots together with its capacity.  A slot
  is `Option α`: `some v` is an initialized element, `none` is a slot whose
  length was extended by `make_place` (`set_len`) but whose memory was never
  written — so reads of uninitialized memory are visible in the model;
* the `RefCell` dynamic borrow flag as a `locked : Bool` field on the arena.
  Every mutating operation corresponds to `borrow_mut`: it fails with
  `ArenaError.borrowConflict` when the flag is already set (the re-entrant
  case) and otherwise runs with the flag held, returning a state with the
  flag released;
* a Rust panic (`RefCell::borrow_mut` conflict, or `Option::unwrap` on the
  overflow-checked multiplication in `grow`) as an `Except.error`: the
  operation produces no successor state;
* `usize` arithmetic over `Nat` with the 64-bit bound made explicit in
  `checked_mul`;
* an issued `&mut T` reference, per the ownership reformulation in the spec,
  as an opaque `(chunk_id, slot_id)` pair resolved by a bounds-checked
  lookup: sealed chunk number `i` (oldest first) has chunk id `i`, and the
  open chunk has chunk id `rest.length` (stable across `grow`, which pushes
  the open chunk at exactly that position).
-/

/-- Error outcomes of arena operations: a dynamic borrow conflict
(re-entrant `RefCell::borrow_mut`, the contract-violation error) or the
`checked_mul(2).unwrap()` failure when doubling the capacity overflows. -/
inductive ArenaError where
  | borrowConflict
  | capacityOverflow
deriving DecidableEq

/-- Number of values of the Rust `usize` type (64-bit platform). -/
def USIZE : Nat := 2 ^ 64

/-- Rust `usize::checked_mul`: `some (a * b)` unless the product overflows. -/
def checked_mul (a b : Nat) : Option Nat :=
  if a * b < USIZE then some (a * b) else none

/-- One `Vec<T>` buffer: the list of its slots plus its fixed capacity.
`Vec::with_capacity n` allocates capacity exactly `n` for a sized type. -/
structure Chunk (α : Type) where
  data : List (Option α)
  cap : Nat
deriving DecidableEq

/-- The Rust `ChunkList<T>`: the open chunk `current` and the sealed chunks
`rest`, oldest first. -/
structure ChunkList (α : Type) where
  current : Chunk α
  rest : List (Chunk α)
deriving DecidableEq

/-- The Rust `Arena<T>`.  `locked` models the `RefCell` borrow flag: it is
`true` exactly while a mutating call is in progress, so a state with
`locked = true` is the state seen by a re-entrant call. -/
structure Arena (α : Type) where
  chunks : ChunkList α
  locked : Bool
deriving DecidableEq

/-- `INITIAL_SIZE` constant from the source: initial size in bytes. -/
def INITIAL_SIZE : Nat := 1024

/-- `MIN_CAPACITY` constant from the source: minimum capacity. -/
def MIN_CAPACITY : Nat := 1

/-- `Arena::with_capacity(n)`: clamp `n` to `MIN_CAPACITY`, open chunk empty
with that capacity, no sealed chunks, borrow flag clear. -/
def Arena.with_capacity {α : Type} (n : Nat) : Arena α :=
  ⟨⟨⟨[], max MIN_CAPACITY n⟩, []⟩, false⟩

/-- The divisor used by `Arena::new`: `cmp::max(1, mem::size_of::<T>())`. -/
def Arena.new_divisor (size_of_T : Nat) : Nat := max 1 size_of_T

/-- `Arena::new()`: derive the initial capacity from the `INITIAL_SIZE` byte
budget.  `mem::size_of::<T>()` is not computable inside the embedding, so the
element size is passed as the argument `size_of_T`. -/
def Arena.new {α : Type} (size_of_T : Nat) : Arena α :=
  Arena.with_capacity (INITIAL_SIZE / Arena.new_divisor size_of_T)

/-- `ChunkList::grow`: double the open chunk's capacity with overflow-checked
multiplication (`none` models the `unwrap` panic), push the full open chunk
onto the end of `rest`, and install a fresh empty chunk of the new capacity. -/
def ChunkList.grow {α : Type} (cl : ChunkList α) : Option (ChunkList α) :=
  match checked_mul cl.current.cap 2 with
  | none => none
  | some new_capacity => some ⟨⟨[], new_capacity⟩, cl.rest ++ [cl.current]⟩

/-- `Arena::alloc(value)`: take the borrow, push `value` onto the open chunk,
record the reference `(chunk_id, slot_id)` to the written slot, then grow
eagerly if the push made the open chunk exactly full.  The length check after
the push, `current.len() == current.capacity()`, is written with the pushed
list spelled out. -/
def Arena.alloc {α : Type} (a : Arena α) (value : α) :
    Except ArenaError ((Nat × Nat) × Arena α) :=
  if a.locked then .error .borrowConflict else
    let cl := a.chunks
    let next_item_index := cl.current.data.length
    let cl1 : ChunkList α := ⟨⟨cl.current.data ++ [some value], cl.current.cap⟩, cl.rest⟩
    let new_item_ref := (cl.rest.length, next_item_index)
    if cl1.current.data.length = cl1.current.cap then
      match cl1.grow with
      | none => .error .capacityOverflow
      | some cl2 => .ok (new_item_ref, ⟨cl2, false⟩)
    else
      .ok (new_item_ref, ⟨cl1, false⟩)

/-- Contents extracted by `Arena::into_vec` from a chunk list: every sealed
chunk's contents, oldest first, followed by the open chunk's contents. -/
def ChunkList.extract_all {α : Type} (cl : ChunkList α) : List (Option α) :=
  (cl.rest.map Chunk.data).flatten ++ cl.current.data

/-- `Arena::into_vec(self)`: consume the arena and return all elements in
allocation order.  In Rust a re-entrant call cannot even be expressed (the
arena is moved); in the embedding a consumption attempted while a mutating
call is in progress is reported as the borrow conflict. -/
def Arena.into_vec {α : Type} (a : Arena α) : Except ArenaError (List (Option α)) :=
  if a.locked then .error .borrowConflict else .ok a.chunks.extract_all

/-- `<&Arena<T> as Placer<T>>::make_place`: take the borrow and extend the
open chunk's logical length by one (`set_len(next_item_index + 1)`) without
writing the slot — the new last slot is `none`, i.e. uninitialized.  Returns
the `(chunk_id, slot_id)` of the reserved slot.  No capacity check and no
growth happen here; the precondition is maintained by `finalize`. -/
def Arena.make_place {α : Type} (a : Arena α) :
    Except ArenaError ((Nat × Nat) × Arena α) :=
  if a.locked then .error .borrowConflict else
    let cl := a.chunks
    let next_item_index := cl.current.data.length
    .ok ((cl.rest.length, next_item_index),
      ⟨⟨⟨cl.current.data ++ [none], cl.current.cap⟩, cl.rest⟩, false⟩)

/-- The caller's construction step between `make_place` and `finalize`:
writing the value through the place's raw pointer, i.e. storing `some value`
at slot `slot_id` of the open chunk.  This goes through the pointer, not
through the arena, so it neither checks nor takes the borrow flag. -/
def Arena.write_place {α : Type} (a : Arena α) (slot_id : Nat) (value : α) : Arena α :=
  ⟨⟨⟨a.chunks.current.data.set slot_id (some value), a.chunks.current.cap⟩,
    a.chunks.rest⟩, a.locked⟩

/-- `<ArenaPlace<T> as InPlace<T>>::finalize`: take the borrow and grow
eagerly if the open chunk is exactly full, maintaining the free-slot
precondition for the next call. -/
def Arena.finalize {α : Type} (a : Arena α) : Except ArenaError (Arena α) :=
  if a.locked then .error .borrowConflict else
    let cl := a.chunks
    if cl.current.data.length = cl.current.cap then
      match cl.grow with
      | none => .error .capacityOverflow
      | some cl2 => .ok ⟨cl2, false⟩
    else
      .ok ⟨cl, false⟩

/-- `<ArenaPlace<T> as Drop>::drop`, the abandon path: take the borrow and
roll the open chunk's logical length back by one (`set_len(len - 1)`). -/
def Arena.drop_place {α : Type} (a : Arena α) : Except ArenaError (Arena α) :=
  if a.locked then .error .borrowConflict else
    .ok ⟨⟨⟨a.chunks.current.data.dropLast, a.chunks.current.cap⟩, a.chunks.rest⟩, false⟩

/-- One client-visible allocation action: a move-in allocation, a completed
in-place construction (`make_place`, write the value, `finalize`), or an
abandoned reservation (`make_place`, write nothing, drop the place). -/
inductive Op (α : Type) where
  | alloc (v : α)
  | placeCommit (v : α)
  | placeAbandon
deriving DecidableEq

/-- The element an action contributes to the arena, if any. -/
def Op.val {α : Type} : Op α → Option α
  | .alloc v => some v
  | .placeCommit v => some v
  | .placeAbandon => none

/-- The sequence of elements produced by a list of actions, in order. -/
def produced {α : Type} (ops : List (Op α)) : List α :=
  ops.filterMap Op.val

/-- Run one action against the arena. -/
def Arena.runOp {α : Type} (a : Arena α) : Op α → Except ArenaError (Arena α)
  | .alloc v =>
    match a.alloc v with
    | .ok (_, a1) => .ok a1
    | .error e => .error e
  | .placeCommit v =>
    match a.make_place with
    | .ok ((_, slot_id), a1) => (a1.write_place slot_id v).finalize
    | .error e => .error e
  | .placeAbandon =>
    match a.make_place with
    | .ok (_, a1) => a1.drop_place
    | .error e => .error e

/-- Run a list of actions left to right, stopping at the first failure. -/
def Arena.runOps {α : Type} (a : Arena α) : List (Op α) → Except ArenaError (Arena α)
  | [] => .ok a
  | op :: ops =>
    match a.runOp op with
    | .ok a1 => a1.runOps ops
    | .error e => .error e

/-- Run a list of actions and then consume the arena with `into_vec`. -/
def Arena.run_extract {α : Type} (a : Arena α) (ops : List (Op α)) :
    Except ArenaError (List (Option α)) :=
  match a.runOps ops with
  | .ok a1 => a1.into_vec
  | .error e => .error e

/-- Bounds-checked resolution of an issued reference `(chunk_id, slot_id)`:
chunk id `rest.length` is the open chunk, chunk id `i < rest.length` is the
`i`-th sealed chunk (oldest first). -/
def ChunkList.lookup_ref {α : Type} (cl : ChunkList α) (r : Nat × Nat) :
    Option (Option α) :=
  if r.1 = cl.rest.length then cl.current.data[r.2]?
  else
    match cl.rest[r.1]? with
    | some c => c.data[r.2]?
    | none => none

/-- The spec's free-slot invariant: the open chunk has at least one free
slot, i.e. its length is strictly below its capacity. -/
def Arena.has_free {α : Type} (a : Arena α) : Prop :=
  a.chunks.current.data.length < a.chunks.current.cap

/-- The run invariant tying a reachable arena state to the values produced so
far: no mutating call is in progress, the open chunk has a free slot, and the
extractable contents are exactly the produced values, in order, all
initialized. -/
def good {α : Type} (a : Arena α) (vs : List α) : Prop :=
  a.locked = false ∧ a.has_free ∧ a.chunks.extract_all = vs.map some

/-! Helper lemmas about `grow`. -/

/-- Growing succeeds exactly when the doubled capacity does not overflow. -/
theorem ChunkList.grow_eq_some {α : Type} {cl cl' : ChunkList α}
    (h : cl.grow = some cl') :
    cl.current.cap * 2 < USIZE ∧
      cl' = ⟨⟨[], cl.current.cap * 2⟩, cl.rest ++ [cl.current]⟩ := by
  unfold ChunkList.grow checked_mul at h
  by_cases hc : cl.current.cap * 2 < USIZE
  · simp only [if_pos hc] at h
    exact ⟨hc, (Option.some.injEq _ _ ▸ h).symm⟩
  · simp [if_neg hc] at h

/-- Growing fails exactly when the doubled capacity overflows. -/
theorem ChunkList.grow_eq_none {α : Type} (cl : ChunkList α)
    (h : USIZE ≤ cl.current.cap * 2) : cl.grow = none := by
  unfold ChunkList.grow checked_mul
  simp [Nat.not_lt.mpr h]

/-- C4: whenever `grow` succeeds, the new open chunk's capacity is exactly
double the old one, the old full chunk is moved unmodified to the end of the
sealed-chunk sequence, and the new open chunk is empty; concretely, from
capacity 2, `alloc 10; alloc 20; alloc 30` seals `[10, 20]`, grows to
capacity 4, places `30` in the new open chunk, and `into_vec` yields
`[10, 20, 30]`. -/
theorem grow_doubles_and_seals :
    (∀ (α : Type) (cl cl' : ChunkList α), cl.grow = some cl' →
      cl'.current.cap = cl.current.cap * 2 ∧ cl'.current.data = [] ∧
        cl'.rest = cl.rest ++ [cl.current]) ∧
    ((Arena.with_capacity 2 : Arena Nat).runOps [Op.alloc 10, Op.alloc 20, Op.alloc 30] =
      .ok ⟨⟨⟨[some 30], 4⟩, [⟨[some 10, some 20], 2⟩]⟩, false⟩) ∧
    ((Arena.with_capacity 2 : Arena Nat).run_extract [Op.alloc 10, Op.alloc 20, Op.alloc 30] =
      .ok [some 10, some 20, some 30]) := by
  refine ⟨?_, rfl, rfl⟩
  intro α cl cl' h
  obtain ⟨-, rfl⟩ := ChunkList.grow_eq_some h
  exact ⟨rfl, rfl, rfl⟩

/-- Witness for C4 at a concrete chunk list of capacity 1. -/
theorem grow_doubles_and_seals_witness :
    (ChunkList.grow ⟨⟨[some 1], 1⟩, []⟩ : Option (ChunkList Nat)) =
        some ⟨⟨[], 2⟩, [⟨[some 1], 1⟩]⟩ ∧
      (⟨⟨[], 2⟩, [⟨[some 1], 1⟩]⟩ : ChunkList Nat).current.cap =
          (⟨⟨[some 1], 1⟩, []⟩ : ChunkList Nat).current.cap * 2 ∧
        (⟨⟨[], 2⟩, [⟨[some 1], 1⟩]⟩ : ChunkList Nat).current.data = [] ∧
        (⟨⟨[], 2⟩, [⟨[some 1], 1⟩]⟩ : ChunkList Nat).rest =
          (⟨⟨[some 1], 1⟩, []⟩ : ChunkList Nat).rest ++
            [(⟨⟨[some 1], 1⟩, []⟩ : ChunkList Nat).current] :=
  ⟨rfl, grow_doubles_and_seals.1 Nat ⟨⟨[some 1], 1⟩, []⟩ ⟨⟨[], 2⟩, [⟨[some 1], 1⟩]⟩ rfl⟩

/-- C6: from any state in which a mutating call is in progress (the borrow
flag is held), every re-entrant mutating call — move-in allocation,
reservation, commit, abandon, extraction — fails with the contract-violation
error and produces no successor state, so the arena is never silently
corrupted. -/
theorem reentrant_calls_rejected : ∀ (α : Type) (a : Arena α) (v : α),
    a.locked = true →
    a.alloc v = .error .borrowConflict ∧
      a.make_place = .error .borrowConflict ∧
      a.finalize = .error .borrowConflict ∧
      a.drop_place = .error .borrowConflict ∧
      a.into_vec = .error .borrowConflict := by
  intro α a v h
  refine ⟨?_, ?_, ?_, ?_, ?_⟩ <;>
    simp [Arena.alloc, Arena.make_place, Arena.finalize, Arena.drop_place,
      Arena.into_vec, h]

/-- Witness for C6 at a concrete locked arena. -/
theorem reentrant_calls_rejected_witness :
    (⟨⟨⟨[], 1⟩, []⟩, true⟩ : Arena Nat).locked = true ∧
      ((⟨⟨⟨[], 1⟩, []⟩, true⟩ : Arena Nat).alloc 0 = .error .borrowConflict ∧
        (⟨⟨⟨[], 1⟩, []⟩, true⟩ : Arena Nat).make_place = .error .borrowConflict ∧
        (⟨⟨⟨[], 1⟩, []⟩, true⟩ : Arena Nat).finalize = .error .borrowConflict ∧
        (⟨⟨⟨[], 1⟩, []⟩, true⟩ : Arena Nat).drop_place = .error .borrowConflict ∧
        (⟨⟨⟨[], 1⟩, []⟩, true⟩ : Arena Nat).into_vec = .error .borrowConflict) :=
  ⟨rfl, reentrant_calls_rejected Nat ⟨⟨⟨[], 1⟩, []⟩, true⟩ 0 rfl⟩

/-- C7: the new capacity during growth is the overflow-checked double of the
current capacity: when the multiplication overflows the 64-bit `usize` range,
`grow` returns no state at all (the `unwrap` panics, modelled as `none`), and
whenever it does return a state the new capacity is exactly twice the old —
never a silently smaller one. -/
theorem grow_overflow_fatal :
    (∀ (α : Type) (cl : ChunkList α), USIZE ≤ cl.current.cap * 2 → cl.grow = none) ∧
    (∀ (α : Type) (cl cl' : ChunkList α), cl.grow = some cl' →
      cl'.current.cap = cl.current.cap * 2 ∧ cl.current.cap * 2 < USIZE) := by
  constructor
  · intro α cl h
    exact ChunkList.grow_eq_none cl h
  · intro α cl cl' h
    obtain ⟨hlt, rfl⟩ := ChunkList.grow_eq_some h
    exact ⟨rfl, hlt⟩

/-- Witness for C7: a chunk list whose capacity `2 ^ 63` overflows on
doubling, and one of capacity 1 that doubles to 2. -/
theorem grow_overflow_fatal_witness :
    (ChunkList.grow ⟨⟨[], 2 ^ 63⟩, []⟩ : Option (ChunkList Nat)) = none ∧
      ((⟨⟨[], 2⟩, [⟨[some 1], 1⟩]⟩ : ChunkList Nat).current.cap =
          (⟨⟨[some 1], 1⟩, []⟩ : ChunkList Nat).current.cap * 2 ∧
        (⟨⟨[some 1], 1⟩, []⟩ : ChunkList Nat).current.cap * 2 < USIZE) :=
  ⟨grow_overflow_fatal.1 Nat ⟨⟨[], 2 ^ 63⟩, []⟩ (by decide),
    grow_overflow_fatal.2 Nat ⟨⟨[some 1], 1⟩, []⟩ ⟨⟨[], 2⟩, [⟨[some 1], 1⟩]⟩ rfl⟩

/-- C8: constructing with requested capacity 0 yields exactly the same arena
as constructing with requested capacity 1, and its open chunk capacity is 1. -/
theorem with_capacity_zero_clamped : ∀ (α : Type),
    (Arena.with_capacity 0 : Arena α) = Arena.with_capacity 1 ∧
      (Arena.with_capacity 0 : Arena α).chunks.current.cap = 1 :=
  fun _ => ⟨rfl, rfl⟩

/-- C9: for every positive element size, default construction derives the
initial capacity as the 1024-byte budget divided by the element size, floored
to a minimum of 1 slot. -/
theorem new_capacity_from_budget : ∀ (α : Type) (s : Nat), 0 < s →
    (Arena.new s : Arena α).chunks.current.cap = max 1 (INITIAL_SIZE / s) := by
  intro α s hs
  unfold Arena.new Arena.new_divisor Arena.with_capacity
  rw [Nat.max_eq_right hs]
  rfl

/-- Witness for C9 at element size 4: capacity `1024 / 4 = 256`. -/
theorem new_capacity_from_budget_witness :
    0 < 4 ∧ (Arena.new 4 : Arena Nat).chunks.current.cap = max 1 (INITIAL_SIZE / 4) :=
  ⟨by decide, new_capacity_from_budget Nat 4 (by decide)⟩

/-- C10: the divisor used by default construction is clamped to a minimum of
1 before dividing the 1024-byte budget, so the division is never by zero, and
a zero-sized element type gets initial capacity 1024. -/
theorem new_zero_sized_capacity :
    (∀ s : Nat, 1 ≤ Arena.new_divisor s) ∧
      (∀ (α : Type), (Arena.new 0 : Arena α).chunks.current.cap = 1024) :=
  ⟨fun s => le_max_left 1 s, fun _ => rfl⟩

/-! Helper lemmas for the allocation step and the place protocol. -/

/-- Setting the slot just past `l` (the slot `make_place` reserved) writes the
final element. -/
theorem set_concat_length {β : Type} (l : List β) (x y : β) :
    (l ++ [x]).set l.length y = l ++ [y] := by
  induction l with
  | nil => rfl
  | cons a t ih =>
    show a :: (t ++ [x]).set t.length y = a :: (t ++ [y])
    rw [ih]

/-- Full characterization of a successful `alloc`: the borrow was free, the
returned reference names the next slot of the open chunk, and the new state
is either the pushed open chunk (not yet full) or, when the push made it
exactly full, the grown state with the pushed chunk sealed at the end. -/
theorem Arena.alloc_cases {α : Type} {a : Arena α} {v : α} {r : Nat × Nat}
    {a' : Arena α} (h : a.alloc v = .ok (r, a')) :
    a.locked = false ∧
      r = (a.chunks.rest.length, a.chunks.current.data.length) ∧
      ((a.chunks.current.data.length + 1 ≠ a.chunks.current.cap ∧
          a' = ⟨⟨⟨a.chunks.current.data ++ [some v], a.chunks.current.cap⟩,
            a.chunks.rest⟩, false⟩) ∨
        (a.chunks.current.data.length + 1 = a.chunks.current.cap ∧
          a.chunks.current.cap * 2 < USIZE ∧
          a' = ⟨⟨⟨[], a.chunks.current.cap * 2⟩,
            a.chunks.rest ++
              [⟨a.chunks.current.data ++ [some v], a.chunks.current.cap⟩]⟩,
            false⟩)) := by
  obtain ⟨⟨⟨data, cap⟩, rest⟩, lk⟩ := a
  cases lk with
  | true => simp [Arena.alloc] at h
  | false =>
    simp only [Arena.alloc, if_false, Bool.false_eq_true, reduceIte] at h
    refine ⟨rfl, ?_⟩
    by_cases hfull : (data ++ [some v]).length = cap
    · rw [if_pos hfull] at h
      cases hg : ChunkList.grow ⟨⟨data ++ [some v], cap⟩, rest⟩ with
      | none => rw [hg] at h; cases h
      | some cl2 =>
        rw [hg] at h
        obtain ⟨hlt, rfl⟩ := ChunkList.grow_eq_some hg
        simp only [List.length_append, List.length_cons, List.length_nil] at hfull
        cases h
        exact ⟨rfl, Or.inr ⟨hfull, hlt, rfl⟩⟩
    · rw [if_neg hfull] at h
      simp only [List.length_append, List.length_cons, List.length_nil] at hfull
      cases h
      exact ⟨rfl, Or.inl ⟨hfull, rfl⟩⟩

/-- A successful `runOp` of a move-in allocation comes from a successful
`alloc`. -/
theorem Arena.runOp_alloc_ok {α : Type} {a a' : Arena α} {v : α}
    (h : a.runOp (Op.alloc v) = .ok a') :
    ∃ r : Nat × Nat, a.alloc v = .ok (r, a') := by
  simp only [Arena.runOp] at h
  cases ha : a.alloc v with
  | error e => rw [ha] at h; cases h
  | ok p =>
    obtain ⟨r, a1⟩ := p
    rw [ha] at h
    have h1 : a1 = a' := by simpa using h
    exact ⟨r, by rw [h1]⟩

/-- A committed in-place construction (`make_place`, write the value,
`finalize`) has exactly the same effect on the arena as a move-in
allocation of the same value. -/
theorem Arena.runOp_commit_eq_alloc {α : Type} (a : Arena α) (v : α) :
    a.runOp (Op.placeCommit v) = a.runOp (Op.alloc v) := by
  obtain ⟨⟨⟨data, cap⟩, rest⟩, lk⟩ := a
  cases lk with
  | true =>
    simp [Arena.runOp, Arena.alloc, Arena.make_place]
  | false =>
    simp only [Arena.runOp, Arena.alloc, Arena.make_place, Arena.write_place,
      Arena.finalize, if_false, Bool.false_eq_true, reduceIte,
      set_concat_length]
    by_cases hfull : (data ++ [some v]).length = cap
    · rw [if_pos hfull, if_pos hfull]
      cases hg : ChunkList.grow ⟨⟨data ++ [some v], cap⟩, rest⟩ with
      | none => rfl
      | some cl2 => rfl
    · rw [if_neg hfull, if_neg hfull]

/-- Reserving a slot and immediately abandoning it returns the arena to
exactly its previous state. -/
theorem Arena.drop_roundtrip {α : Type} (a : Arena α) (h : a.locked = false) :
    a.runOp Op.placeAbandon = .ok a := by
  obtain ⟨⟨⟨data, cap⟩, rest⟩, lk⟩ := a
  cases h
  simp [Arena.runOp, Arena.make_place, Arena.drop_place]

/-- A successful `alloc` re-establishes the free-slot invariant: either the
push left room, or the chunk became exactly full and `grow` installed a fresh
empty chunk of positive capacity before the call returned. -/
theorem Arena.alloc_has_free {α : Type} {a a' : Arena α} {v : α}
    {r : Nat × Nat} (hfree : a.has_free) (h : a.alloc v = .ok (r, a')) :
    a'.has_free := by
  obtain ⟨-, -, hcase⟩ := Arena.alloc_cases h
  cases hcase with
  | inl hc =>
    obtain ⟨hne, rfl⟩ := hc
    show (a.chunks.current.data ++ [some v]).length < a.chunks.current.cap
    simp only [List.length_append, List.length_cons, List.length_nil]
    exact Nat.lt_of_le_of_ne hfree hne
  | inr hc =>
    obtain ⟨-, -, rfl⟩ := hc
    show ([] : List (Option α)).length < a.chunks.current.cap * 2
    simp only [List.length_nil]
    exact Nat.mul_pos (Nat.lt_of_le_of_lt (Nat.zero_le _) hfree) (by decide)

/-- A successful move-in allocation preserves the run invariant and appends
its value to the produced sequence. -/
theorem good_alloc {α : Type} {a a' : Arena α} {v : α} {vs : List α}
    (hg : good a vs) (h : a.runOp (Op.alloc v) = .ok a') :
    good a' (vs ++ [v]) := by
  obtain ⟨hl, hfree, hex⟩ := hg
  obtain ⟨r, ha⟩ := Arena.runOp_alloc_ok h
  refine ⟨?_, Arena.alloc_has_free hfree ha, ?_⟩
  · obtain ⟨-, -, hcase⟩ := Arena.alloc_cases ha
    cases hcase with
    | inl hc => rw [hc.2]
    | inr hc => rw [hc.2.2]
  · obtain ⟨-, -, hcase⟩ := Arena.alloc_cases ha
    simp only [ChunkList.extract_all] at hex
    cases hcase with
    | inl hc =>
      rw [hc.2]
      simp only [ChunkList.extract_all]
      rw [← List.append_assoc, hex, List.map_append]
      rfl
    | inr hc =>
      rw [hc.2.2]
      simp only [ChunkList.extract_all, List.map_append, List.flatten_append,
        List.map_cons, List.map_nil, List.flatten_cons, List.flatten_nil,
        List.append_nil]
      rw [← List.append_assoc, hex]

/-- Every successful action preserves the run invariant, appending exactly
the element it produces. -/
theorem good_runOp {α : Type} {a a' : Arena α} {op : Op α} {vs : List α}
    (hg : good a vs) (h : a.runOp op = .ok a') :
    good a' (vs ++ op.val.toList) := by
  cases op with
  | alloc v => exact good_alloc hg h
  | placeCommit v =>
    rw [Arena.runOp_commit_eq_alloc] at h
    exact good_alloc hg h
  | placeAbandon =>
    rw [Arena.drop_roundtrip a hg.1] at h
    cases h
    simpa [Op.val, Option.toList] using hg

/-- The values produced by an action list, unfolded one action. -/
theorem produced_cons {α : Type} (op : Op α) (ops : List (Op α)) :
    produced (op :: ops) = op.val.toList ++ produced ops := by
  cases op <;> simp [produced, Op.val]

/-- Running an action list from an invariant state reaches an invariant
state whose produced values are extended by exactly the run's elements. -/
theorem good_runOps {α : Type} (ops : List (Op α)) :
    ∀ {a a' : Arena α} {vs : List α},
      good a vs → a.runOps ops = .ok a' → good a' (vs ++ produced ops) := by
  induction ops with
  | nil =>
    intro a a' vs hg h
    simp only [Arena.runOps] at h
    cases h
    simpa [produced] using hg
  | cons op ops ih =>
    intro a a' vs hg h
    simp only [Arena.runOps] at h
    cases h1 : a.runOp op with
    | error e => rw [h1] at h; exact Except.noConfusion h
    | ok a1 =>
      rw [h1] at h
      have hstep := good_runOp hg h1
      have htail := ih hstep h
      rw [List.append_assoc] at htail
      rwa [produced_cons]

/-- A successful move-in allocation leaves the content found through every
previously filled slot reference unchanged: sealed chunks are untouched, the
open chunk only gains an element past existing slots, and growth moves the
open chunk to the sealed position carrying exactly its chunk id. -/
theorem Arena.alloc_lookup_stable {α : Type} {a a' : Arena α} {v : α}
    {r0 : Nat × Nat} (h : a.alloc v = .ok (r0, a'))
    {r : Nat × Nat} {x : α} (hl : a.chunks.lookup_ref r = some (some x)) :
    a'.chunks.lookup_ref r = some (some x) := by
  obtain ⟨-, -, hcase⟩ := Arena.alloc_cases h
  unfold ChunkList.lookup_ref at hl
  cases hcase with
  | inl hc =>
    rw [hc.2]
    unfold ChunkList.lookup_ref
    by_cases hci : r.1 = a.chunks.rest.length
    · rw [if_pos hci] at hl
      rw [if_pos hci]
      obtain ⟨hsi, -⟩ := List.getElem?_eq_some.mp hl
      show (a.chunks.current.data ++ [some v])[r.2]? = some (some x)
      rw [List.getElem?_append_left hsi]
      exact hl
    · rw [if_neg hci] at hl
      rw [if_neg hci]
      exact hl
  | inr hc =>
    rw [hc.2.2]
    unfold ChunkList.lookup_ref
    by_cases hci : r.1 = a.chunks.rest.length
    · rw [if_pos hci] at hl
      obtain ⟨hsi, -⟩ := List.getElem?_eq_some.mp hl
      have hne : r.1 ≠
          (a.chunks.rest ++
            [(⟨a.chunks.current.data ++ [some v], a.chunks.current.cap⟩ : Chunk α)]).length := by
        rw [hci, List.length_append, List.length_cons, List.length_nil]
        exact Nat.ne_of_lt (Nat.lt_succ_self _)
      rw [if_neg hne, hci, List.getElem?_concat_length]
      show (a.chunks.current.data ++ [some v])[r.2]? = some (some x)
      rw [List.getElem?_append_left hsi]
      exact hl
    · rw [if_neg hci] at hl
      cases hrest : a.chunks.rest[r.1]? with
      | none => rw [hrest] at hl; exact Option.noConfusion hl
      | some c =>
        rw [hrest] at hl
        obtain ⟨hlt, -⟩ := List.getElem?_eq_some.mp hrest
        have hne : r.1 ≠
            (a.chunks.rest ++
              [(⟨a.chunks.current.data ++ [some v], a.chunks.current.cap⟩ : Chunk α)]).length := by
          rw [List.length_append, List.length_cons, List.length_nil]
          exact Nat.ne_of_lt (Nat.lt_succ_of_lt hlt)
        rw [if_neg hne, List.getElem?_append_left hlt, hrest]
        exact hl

/-- Every successful action leaves the content of every filled slot
reference unchanged. -/
theorem Arena.runOp_lookup_stable {α : Type} {a a' : Arena α} {op : Op α}
    (h : a.runOp op = .ok a') {r : Nat × Nat} {x : α}
    (hl : a.chunks.lookup_ref r = some (some x)) :
    a'.chunks.lookup_ref r = some (some x) := by
  cases op with
  | alloc v =>
    obtain ⟨r0, ha⟩ := Arena.runOp_alloc_ok h
    exact Arena.alloc_lookup_stable ha hl
  | placeCommit v =>
    rw [Arena.runOp_commit_eq_alloc] at h
    obtain ⟨r0, ha⟩ := Arena.runOp_alloc_ok h
    exact Arena.alloc_lookup_stable ha hl
  | placeAbandon =>
    cases hL : a.locked with
    | true => simp [Arena.runOp, Arena.make_place, hL] at h
    | false =>
      rw [Arena.drop_roundtrip a hL] at h
      cases h
      exact hl

/-- Running any action list leaves the content of every filled slot
reference unchanged. -/
theorem Arena.runOps_lookup_stable {α : Type} (ops : List (Op α)) :
    ∀ {a a' : Arena α} {r : Nat × Nat} {x : α},
      a.chunks.lookup_ref r = some (some x) → a.runOps ops = .ok a' →
      a'.chunks.lookup_ref r = some (some x) := by
  induction ops with
  | nil =>
    intro a a' r x hl h
    simp only [Arena.runOps] at h
    cases h
    exact hl
  | cons op ops ih =>
    intro a a' r x hl h
    simp only [Arena.runOps] at h
    cases h1 : a.runOp op with
    | error e => rw [h1] at h; exact Except.noConfusion h
    | ok a1 =>
      rw [h1] at h
      exact ih (Arena.runOp_lookup_stable h1 hl) h

/-- C1: for every sequence of successful move-in allocations and committed
in-place constructions producing elements `v1..vn` in that order, consuming
the arena with `into_vec` returns exactly `[v1, ..., vn]` — the concatenation
of every sealed chunk's contents (oldest first) followed by the open chunk's
contents. -/
theorem into_vec_order_preservation :
    ∀ (α : Type) (n : Nat) (ops : List (Op α)) (a : Arena α),
      (∀ op ∈ ops, op ≠ Op.placeAbandon) →
      (Arena.with_capacity n).runOps ops = .ok a →
      a.into_vec = .ok ((produced ops).map some) := by
  intro α n ops a _ h
  have hg0 : good (Arena.with_capacity n : Arena α) [] :=
    ⟨rfl, Nat.lt_of_lt_of_le Nat.zero_lt_one (le_max_left 1 n), rfl⟩
  obtain ⟨hl, -, hex⟩ := good_runOps ops hg0 h
  rw [List.nil_append] at hex
  simp [Arena.into_vec, hl, hex]

/-- Witness for C1: two produced elements, the second via the in-place
protocol, extracted in order. -/
theorem into_vec_order_preservation_witness :
    (∀ op ∈ ([Op.alloc 1, Op.placeCommit 2] : List (Op Nat)),
        op ≠ Op.placeAbandon) ∧
      (Arena.with_capacity 2 : Arena Nat).runOps [Op.alloc 1, Op.placeCommit 2] =
        .ok ⟨⟨⟨[], 4⟩, [⟨[some 1, some 2], 2⟩]⟩, false⟩ ∧
      (⟨⟨⟨[], 4⟩, [⟨[some 1, some 2], 2⟩]⟩, false⟩ : Arena Nat).into_vec =
        .ok ((produced [Op.alloc 1, Op.placeCommit 2]).map some) :=
  ⟨by decide, rfl,
    into_vec_order_preservation Nat 2 [Op.alloc 1, Op.placeCommit 2]
      ⟨⟨⟨[], 4⟩, [⟨[some 1, some 2], 2⟩]⟩, false⟩ (by decide) rfl⟩

/-- C2: the free-slot invariant holds immediately after construction, and
after every completed `alloc` and every committed in-place construction; and
whenever an `alloc` exactly fills the open chunk, the growth happens inside
that same call — the returned state already has the filled chunk sealed at
the end and a fresh empty open chunk. -/
theorem eager_growth_invariant :
    (∀ (α : Type) (n : Nat), (Arena.with_capacity n : Arena α).has_free) ∧
    (∀ (α : Type) (a : Arena α) (v : α) (r : Nat × Nat) (a' : Arena α),
      a.has_free → a.alloc v = .ok (r, a') →
      a'.has_free ∧
        (a.chunks.current.data.length + 1 = a.chunks.current.cap →
          a'.chunks.rest =
              a.chunks.rest ++
                [⟨a.chunks.current.data ++ [some v], a.chunks.current.cap⟩] ∧
            a'.chunks.current.data = [])) ∧
    (∀ (α : Type) (a a' : Arena α) (v : α),
      a.has_free → a.runOp (Op.placeCommit v) = .ok a' → a'.has_free) := by
  refine ⟨?_, ?_, ?_⟩
  · intro α n
    exact Nat.lt_of_lt_of_le Nat.zero_lt_one (le_max_left 1 n)
  · intro α a v r a' hfree h
    refine ⟨Arena.alloc_has_free hfree h, ?_⟩
    intro hfull
    obtain ⟨-, -, hcase⟩ := Arena.alloc_cases h
    cases hcase with
    | inl hc => exact absurd hfull hc.1
    | inr hc => rw [hc.2.2]; exact ⟨rfl, rfl⟩
  · intro α a a' v hfree h
    rw [Arena.runOp_commit_eq_alloc] at h
    obtain ⟨r, ha⟩ := Arena.runOp_alloc_ok h
    exact Arena.alloc_has_free hfree ha

/-- Witness for C2: allocating into a capacity-1 arena exactly fills it, and
the returned state is already grown. -/
theorem eager_growth_invariant_witness :
    (Arena.with_capacity 1 : Arena Nat).has_free ∧
      ((Arena.with_capacity 1 : Arena Nat).alloc 7 =
        .ok ((0, 0), ⟨⟨⟨[], 2⟩, [⟨[some 7], 1⟩]⟩, false⟩)) ∧
      ((⟨⟨⟨[], 2⟩, [⟨[some 7], 1⟩]⟩, false⟩ : Arena Nat).has_free ∧
        ((Arena.with_capacity 1 : Arena Nat).chunks.current.data.length + 1 =
            (Arena.with_capacity 1 : Arena Nat).chunks.current.cap →
          (⟨⟨⟨[], 2⟩, [⟨[some 7], 1⟩]⟩, false⟩ : Arena Nat).chunks.rest =
              (Arena.with_capacity 1 : Arena Nat).chunks.rest ++
                [⟨(Arena.with_capacity 1 : Arena Nat).chunks.current.data ++ [some 7],
                  (Arena.with_capacity 1 : Arena Nat).chunks.current.cap⟩] ∧
            (⟨⟨⟨[], 2⟩, [⟨[some 7], 1⟩]⟩, false⟩ : Arena Nat).chunks.current.data = [])) :=
  ⟨Nat.zero_lt_one, rfl,
    eager_growth_invariant.2.1 Nat (Arena.with_capacity 1) 7 (0, 0)
      ⟨⟨⟨[], 2⟩, [⟨[some 7], 1⟩]⟩, false⟩ Nat.zero_lt_one rfl⟩

/-- C3: the slot backing an issued reference holds the allocated value at
issuance, and its content as seen through the reference is unchanged by every
subsequent action until the arena is consumed: sealed chunks are never
mutated, and the open chunk only gains elements past previously issued
slots. -/
theorem address_stability :
    (∀ (α : Type) (a : Arena α) (v : α) (r : Nat × Nat) (a' : Arena α),
      a.alloc v = .ok (r, a') → a'.chunks.lookup_ref r = some (some v)) ∧
    (∀ (α : Type) (a a' : Arena α) (ops : List (Op α)) (r : Nat × Nat) (x : α),
      a.chunks.lookup_ref r = some (some x) → a.runOps ops = .ok a' →
      a'.chunks.lookup_ref r = some (some x)) := by
  constructor
  · intro α a v r a' h
    obtain ⟨-, rfl, hcase⟩ := Arena.alloc_cases h
    cases hcase with
    | inl hc =>
      rw [hc.2]
      unfold ChunkList.lookup_ref
      rw [if_pos rfl]
      exact List.getElem?_concat_length _ _
    | inr hc =>
      rw [hc.2.2]
      unfold ChunkList.lookup_ref
      have hne : (a.chunks.rest.length, a.chunks.current.data.length).1 ≠
          (a.chunks.rest ++
            [(⟨a.chunks.current.data ++ [some v], a.chunks.current.cap⟩ : Chunk α)]).length := by
        rw [List.length_append, List.length_cons, List.length_nil]
        exact Nat.ne_of_lt (Nat.lt_succ_self _)
      rw [if_neg hne]
      show (match (a.chunks.rest ++
          [(⟨a.chunks.current.data ++ [some v], a.chunks.current.cap⟩ : Chunk α)])[a.chunks.rest.length]? with
        | some c => c.data[a.chunks.current.data.length]?
        | none => none) = some (some v)
      rw [List.getElem?_concat_length]
      exact List.getElem?_concat_length _ _
  · intro α a a' ops r x hl h
    exact Arena.runOps_lookup_stable ops hl h

/-- Witness for C3: a filled slot keeps its content across an allocation
that fills and grows the open chunk. -/
theorem address_stability_witness :
    ((Arena.with_capacity 2 : Arena Nat).alloc 9 =
        .ok ((0, 0), ⟨⟨⟨[some 9], 2⟩, []⟩, false⟩)) ∧
      (⟨⟨⟨[some 9], 2⟩, []⟩, false⟩ : Arena Nat).chunks.lookup_ref (0, 0) =
        some (some 9) ∧
      ((⟨⟨⟨[some 9], 2⟩, []⟩, false⟩ : Arena Nat).runOps [Op.alloc 5] =
        .ok ⟨⟨⟨[], 4⟩, [⟨[some 9, some 5], 2⟩]⟩, false⟩) ∧
      (⟨⟨⟨[], 4⟩, [⟨[some 9, some 5], 2⟩]⟩, false⟩ : Arena Nat).chunks.lookup_ref (0, 0) =
        some (some 9) :=
  ⟨rfl,
    address_stability.1 Nat (Arena.with_capacity 2) 9 (0, 0)
      ⟨⟨⟨[some 9], 2⟩, []⟩, false⟩ rfl,
    rfl,
    address_stability.2 Nat ⟨⟨⟨[some 9], 2⟩, []⟩, false⟩
      ⟨⟨⟨[], 4⟩, [⟨[some 9, some 5], 2⟩]⟩, false⟩ [Op.alloc 5] (0, 0) 9 rfl rfl⟩

/-- C5: reserving a slot and abandoning it returns the arena to exactly its
previous state — the logical length is unaffected and no trace remains — and
an immediately repeated reservation reuses the same slot index; concretely,
`reserve; abandon; alloc 5; into_vec` yields `[5]`. -/
theorem abandon_rollback :
    (∀ (α : Type) (a : Arena α), a.locked = false →
      a.runOp Op.placeAbandon = .ok a) ∧
    (∀ (α : Type) (a a1 a2 : Arena α) (r : Nat × Nat),
      a.make_place = .ok (r, a1) → a1.drop_place = .ok a2 →
      a2 = a ∧ a2.make_place = .ok (r, a1)) ∧
    ((Arena.with_capacity 2 : Arena Nat).run_extract [Op.placeAbandon, Op.alloc 5] =
      .ok [some 5]) := by
  refine ⟨?_, ?_, rfl⟩
  · intro α a h
    exact Arena.drop_roundtrip a h
  · intro α a a1 a2 r hmp hdp
    obtain ⟨⟨⟨data, cap⟩, rest⟩, lk⟩ := a
    cases lk with
    | true => simp [Arena.make_place] at hmp
    | false =>
      simp only [Arena.make_place, if_false, Bool.false_eq_true, reduceIte] at hmp
      cases hmp
      simp only [Arena.drop_place, if_false, Bool.false_eq_true, reduceIte] at hdp
      cases hdp
      constructor
      · simp
      · simp [Arena.make_place]

/-- Witness for C5: a concrete reserve immediately abandoned, with the next
reservation getting the same slot back. -/
theorem abandon_rollback_witness :
    ((Arena.with_capacity 1 : Arena Nat).make_place =
        .ok ((0, 0), ⟨⟨⟨[none], 1⟩, []⟩, false⟩)) ∧
      ((⟨⟨⟨[none], 1⟩, []⟩, false⟩ : Arena Nat).drop_place =
        .ok (Arena.with_capacity 1)) ∧
      ((Arena.with_capacity 1 : Arena Nat) = Arena.with_capacity 1 ∧
        (Arena.with_capacity 1 : Arena Nat).make_place =
          .ok ((0, 0), ⟨⟨⟨[none], 1⟩, []⟩, false⟩)) :=
  ⟨rfl, rfl,
    abandon_rollback.2.1 Nat (Arena.with_capacity 1) ⟨⟨⟨[none], 1⟩, []⟩, false⟩
      (Arena.with_capacity 1) (0, 0) rfl rfl⟩
